import Mathlib

/-!
Verification development for the enclosure dashboard front-end:
the enclosure state store (`enclosure.store.ts`), the disks-overview
tile view (`disks-overview-tiles.component.ts`) and the CPU gauge view
(`cpu-chart-gauge.component.ts`), shallowly embedded in Lean.
-/

/-- Pool-membership descriptor attached to an array-device slot
(`pool_info` field of `DashboardEnclosureSlot`): pool name plus the
disk's status inside that pool. -/
structure EnclosurePoolInfo where
  pool_name : String
  disk_status : String
deriving DecidableEq, Repr

/-- One array-device slot of an enclosure. `pool_info` is `none` when the
slot's disk belongs to no pool (`null` in the payload);
`drive_bay_number` stands for the physical-position metadata. -/
structure DashboardEnclosureSlot where
  drive_bay_number : Nat
  pool_info : Option EnclosurePoolInfo
deriving DecidableEq, Repr

/-- An enclosure of the dashboard payload. The
`elements[EnclosureElementType.ArrayDeviceSlot]` record (keyed by slot
number) is modelled as the list `slots` of its values in ascending key
order, which is the order `Object.values` yields for integer-like keys. -/
structure DashboardEnclosure where
  id : String
  label : String
  slots : List DashboardEnclosureSlot
deriving DecidableEq, Repr

/-- Modelled from the spec: `EnclosureView` enum
(`enclosure-view.enum.ts`, not part of the sources at hand) — a UI mode
for the dashboard, `Pools` being the default, plus other views. -/
inductive EnclosureView where
  | Pools
  | Expanders
deriving DecidableEq, Repr

/-- Modelled from the spec: `EnclosureSide` enum
(`supported-enclosures.ts`, not part of the sources at hand) — the
physical face being visualized: Front, Rear or Top. -/
inductive EnclosureSide where
  | Front
  | Rear
  | Top
deriving DecidableEq, Repr

/-- `EnclosureState`, the state owned by `EnclosureStore`.
`selectedEnclosureIndex` is an `Int` because `Array.prototype.findIndex`
returns `-1` on a miss; the optional TS fields (`selectedSlot`,
`selectedSide`, initialized `undefined`) are `Option`s. -/
structure EnclosureState where
  enclosures : List DashboardEnclosure
  isLoading : Bool
  selectedEnclosureIndex : Int
  selectedSlot : Option DashboardEnclosureSlot
  selectedView : EnclosureView
  selectedSide : Option EnclosureSide
deriving DecidableEq, Repr

/-- `initialState` of the store: loading, no enclosures, index 0, no
slot, Pools view, side undefined (meaning front or top, picked later by
the view). -/
def initialState : EnclosureState :=
  { isLoading := true
    enclosures := []
    selectedEnclosureIndex := 0
    selectedSlot := none
    selectedView := EnclosureView.Pools
    selectedSide := none }

/-- JS `Array.prototype.findIndex`: index of the first element satisfying
the predicate, `-1` when none does. -/
def jsFindIndex (l : List DashboardEnclosure) (p : DashboardEnclosure → Bool) : Int :=
  match l.findIdx? p with
  | some i => (i : Int)
  | none => -1

/-- `EnclosureStore.selectEnclosure` updater: looks the enclosure up by
id; when the found index (or `-1`) equals the current one the state is
returned unchanged, otherwise the index is installed and slot, side and
view are reset to their defaults. -/
def selectEnclosure (s : EnclosureState) (id : String) : EnclosureState :=
  let index := jsFindIndex s.enclosures (fun enclosure => enclosure.id == id)
  if index = s.selectedEnclosureIndex then
    s
  else
    { s with
      selectedEnclosureIndex := index
      selectedSlot := none
      selectedSide := none
      selectedView := EnclosureView.Pools }

/-- `EnclosureStore.renameSelectedEnclosure` updater: copies the
enclosures array and reassigns the entry at `selectedEnclosureIndex`
with the new label. In JS, assignment at a negative index creates a
non-positional string property that the spread/iteration of the array
never sees, so the positional elements stay unchanged; that case, and
the out-of-range one, are modelled as leaving the list unchanged. -/
def renameSelectedEnclosure (s : EnclosureState) (label : String) : EnclosureState :=
  { s with
    enclosures :=
      if h : 0 ≤ s.selectedEnclosureIndex ∧ s.selectedEnclosureIndex.toNat < s.enclosures.length then
        s.enclosures.set s.selectedEnclosureIndex.toNat
          { s.enclosures.get ⟨s.selectedEnclosureIndex.toNat, h.2⟩ with label := label }
      else
        s.enclosures }

/-- `EnclosureStore.selectSlot` updater: unconditionally sets
`selectedSlot`. -/
def selectSlot (s : EnclosureState) (slot : Option DashboardEnclosureSlot) : EnclosureState :=
  { s with selectedSlot := slot }

/-- `EnclosureStore.selectView` updater: unconditionally sets
`selectedView`. -/
def selectView (s : EnclosureState) (view : EnclosureView) : EnclosureState :=
  { s with selectedView := view }

/-- `EnclosureStore.selectSide` updater: no-op when `side` already is the
selected side, otherwise sets it and clears the selected slot. -/
def selectSide (s : EnclosureState) (side : EnclosureSide) : EnclosureState :=
  if some side = s.selectedSide then
    s
  else
    { s with
      selectedSide := some side
      selectedSlot := none }

/-- Net state effect of one completed `initiate()` effect run:
`setState(initialState)`, then the remote call; on success (`some encs`)
the `tap` patches `enclosures`; on failure (`none`) the error is routed
to `errorHandler.catchError()`, which — modelled from the spec — reports
it and swallows it; either way `finalize` then patches
`isLoading := false`. The 100 ms `delay` only affects timing, not the
resulting state. -/
def initiateDone (result : Option (List DashboardEnclosure)) (_s : EnclosureState) : EnclosureState :=
  let afterReset := initialState
  let afterCall :=
    match result with
    | some enclosures => { afterReset with enclosures := enclosures }
    | none => afterReset
  { afterCall with isLoading := false }

/-- Net state effect of one completed `update()` effect run: no reset, no
touch of `isLoading`; on success the `tap` patches `enclosures`, on
failure `errorHandler.catchError()` (modelled from the spec as
report-and-swallow) leaves the state alone. -/
def updateDone (result : Option (List DashboardEnclosure)) (s : EnclosureState) : EnclosureState :=
  match result with
  | some enclosures => { s with enclosures := enclosures }
  | none => s

/-- `EnclosureStore.selectedEnclosure` projection:
`state.enclosures[state.selectedEnclosureIndex]`, which is `undefined`
(`none`) when the index is negative or out of range. -/
def selectedEnclosure (s : EnclosureState) : Option DashboardEnclosure :=
  if 0 ≤ s.selectedEnclosureIndex then
    s.enclosures[s.selectedEnclosureIndex.toNat]?
  else
    none

/-- `EnclosureStore.selectedEnclosureSlots` projection:
`Object.values(selectedEnclosure()?.elements?.[ArrayDeviceSlot] || {})`,
i.e. the selected enclosure's array-device slots in slot order, or `[]`
when nothing is selected. -/
def selectedEnclosureSlots (s : EnclosureState) : List DashboardEnclosureSlot :=
  match selectedEnclosure s with
  | some enclosure => enclosure.slots
  | none => []

/-- One `set` step of the JS `Map` built by `poolsInfo`: setting an
already-present key overwrites its value in place (the key keeps its
original insertion position); a new key is appended. -/
def jsMapSet (m : List (String × EnclosurePoolInfo)) (kv : String × EnclosurePoolInfo) :
    List (String × EnclosurePoolInfo) :=
  if m.any (fun p => p.1 == kv.1) then
    m.map (fun p => if p.1 == kv.1 then (p.1, kv.2) else p)
  else
    m ++ [kv]

/-- `new Map(entries)` for a list of key/value pairs: the entries are
inserted left to right with JS `Map.set` semantics. -/
def jsMapOfEntries (entries : List (String × EnclosurePoolInfo)) :
    List (String × EnclosurePoolInfo) :=
  entries.foldl jsMapSet []

/-- `DisksOverviewTilesComponent.poolsInfo` computed over a slot list:
`[...new Map(slots.filter(s => s.pool_info).map(s => [s.pool_info.pool_name, s.pool_info])).values()]`. -/
def poolsInfo (slots : List DashboardEnclosureSlot) : List EnclosurePoolInfo :=
  (jsMapOfEntries
    ((slots.filter (fun slot => slot.pool_info.isSome)).filterMap
      (fun slot => slot.pool_info.map (fun pi => (pi.pool_name, pi))))).map Prod.snd

/-- The tile view's `poolsInfo` as the component computes it: applied to
the store's `selectedEnclosureSlots` projection. -/
def tilePoolsInfo (s : EnclosureState) : List EnclosurePoolInfo :=
  poolsInfo (selectedEnclosureSlots s)

/-- Left fold keeping the first occurrence of each string. -/
def dedupFirst (names : List String) : List String :=
  names.foldl (fun acc n => if n ∈ acc then acc else acc ++ [n]) []

/-- The claim's reading of `poolsInfo` (spec wording): slots without
`pool_info` excluded, deduplicated by pool name, the descriptor of the
FIRST slot with a given pool name kept. -/
def poolsInfoFirstWins (slots : List DashboardEnclosureSlot) : List EnclosurePoolInfo :=
  (slots.filterMap (fun slot => slot.pool_info)).foldl
    (fun acc pi => if acc.any (fun q => q.pool_name == pi.pool_name) then acc else acc ++ [pi]) []

/-- What the JS `Map` actually computes: one entry per pool name, in
order of first occurrence, carrying the descriptor of the LAST slot with
that pool name. -/
def poolsInfoLastWins (slots : List DashboardEnclosureSlot) : List EnclosurePoolInfo :=
  let infos := slots.filterMap (fun slot => slot.pool_info)
  (dedupFirst (infos.map (fun pi => pi.pool_name))).filterMap
    (fun n => infos.reverse.find? (fun pi => pi.pool_name == n))

/-- The value the JS `Map` ends up holding for key `k`: the value of the
last entry with that key. -/
def lastEntryValue (entries : List (String × EnclosurePoolInfo)) (k : String) :
    Option EnclosurePoolInfo :=
  (entries.reverse.find? (fun p => p.1 == k)).map Prod.snd

/-- Declarative description of a JS `Map` built from an entry list: one
entry per key, keys in order of first occurrence, each carrying the last
value inserted under it. -/
def lastWinsEntries (entries : List (String × EnclosurePoolInfo)) :
    List (String × EnclosurePoolInfo) :=
  (dedupFirst (entries.map Prod.fst)).filterMap
    (fun k => (lastEntryValue entries k).map (fun v => (k, v)))

/-- The discrete events that mutate the store's state, each taken from
the source: the `setState(initialState)` tap at the start of an
`initiate()` run, the `patchState({ enclosures })` tap of a successful
remote call (shared by `initiate` and `update`), the
`patchState({ isLoading: false })` of `initiate`'s `finalize`, and the
five updaters. A failed remote call patches nothing, so it needs no
event of its own. Listing the async patches as separate events covers
every interleaving `switchMap` can produce. -/
inductive StoreOp where
  | initiateReset
  | patchEnclosures (enclosures : List DashboardEnclosure)
  | patchLoadingDone
  | selectEnclosure (id : String)
  | renameSelectedEnclosure (label : String)
  | selectSlot (slot : Option DashboardEnclosureSlot)
  | selectView (view : EnclosureView)
  | selectSide (side : EnclosureSide)

/-- Effect of one store event on the state. -/
def applyOp (s : EnclosureState) : StoreOp → EnclosureState
  | StoreOp.initiateReset => initialState
  | StoreOp.patchEnclosures enclosures => { s with enclosures := enclosures }
  | StoreOp.patchLoadingDone => { s with isLoading := false }
  | StoreOp.selectEnclosure id => selectEnclosure s id
  | StoreOp.renameSelectedEnclosure label => renameSelectedEnclosure s label
  | StoreOp.selectSlot slot => selectSlot s slot
  | StoreOp.selectView view => selectView s view
  | StoreOp.selectSide side => selectSide s side

/-- States reachable from `initialState` by some sequence of store
events. -/
def Reachable (s : EnclosureState) : Prop :=
  ∃ ops : List StoreOp, List.foldl applyOp initialState ops = s

/-- The index invariant as the claim states it: `selectedEnclosureIndex`
is a valid index into `enclosures`, or 0 when `enclosures` is empty. -/
def claimedIndexInvariant (s : EnclosureState) : Prop :=
  (0 ≤ s.selectedEnclosureIndex ∧ s.selectedEnclosureIndex.toNat < s.enclosures.length)
    ∨ (s.enclosures = [] ∧ s.selectedEnclosureIndex = 0)

instance (s : EnclosureState) : Decidable (claimedIndexInvariant s) := by
  unfold claimedIndexInvariant
  infer_instance

/-- Modelled from the spec: the disk-update notifier
(`DisksUpdateService`, an external collaborator) keeps a registry of
subscribers under opaque ids; `addSubscriber` registers a new stream and
returns a fresh id. Ids are modelled as naturals drawn from `nextId`. -/
structure NotifierState where
  nextId : Nat
  subscribers : List Nat
deriving DecidableEq, Repr

/-- The pieces of a store instance relevant to
`addListenerForDiskUpdates`: the notifier it talks to and its private
`disksUpdateSubscriptionId` field (initially unset). -/
structure ListenerState where
  notifier : NotifierState
  subscriptionId : Option Nat
deriving DecidableEq, Repr

/-- `EnclosureStore.addListenerForDiskUpdates`: when
`disksUpdateSubscriptionId` is still unset, subscribes a fresh trigger
stream with the notifier and stores the returned id; when an id is
already stored, does nothing. -/
def addListenerForDiskUpdates (st : ListenerState) : ListenerState :=
  match st.subscriptionId with
  | some _ => st
  | none =>
      { notifier :=
          { nextId := st.notifier.nextId + 1
            subscribers := st.notifier.subscribers ++ [st.notifier.nextId] }
        subscriptionId := some st.notifier.nextId }

/-- How many `update()` calls one fired disk-update notification triggers
on this store: one per registry entry belonging to this store's
subscription (each registered trigger stream is piped into one
`this.update()` call). -/
def updateCallsPerNotification (st : ListenerState) : Nat :=
  (st.notifier.subscribers.filter (fun i => st.subscriptionId == some i)).length

/-- A store instance that has not subscribed yet, attached to a notifier
whose registered ids were all issued before `nextId` (true of any
notifier that hands out ids from the counter). -/
def FreshListener (st : ListenerState) : Prop :=
  st.subscriptionId = none ∧ ∀ i ∈ st.notifier.subscribers, i < st.notifier.nextId

/-- `GaugeConfig` as the CPU gauge fills it: the `data` tuple
`['Load', value]`, the `label`/`units`/`diameter`/`fontSize`/`max`
parameters, and the translated `subtitle`. -/
structure GaugeConfig where
  label : Bool
  data : String × Int
  units : String
  diameter : Nat
  fontSize : Nat
  max : Nat
  subtitle : String
deriving DecidableEq, Repr

/-- JS `Number.prototype.toFixed(1)` as a rational: the value rounded to
one decimal place, ties toward the larger result, exactly Mathlib's
`round` of ten times the value, divided by ten. (The digit string it
produces denotes this rational.) -/
def jsToFixed1 (x : ℚ) : ℚ :=
  ((round (x * 10) : ℤ) : ℚ) / 10

/-- JS `parseInt` applied to the decimal string `toFixed` produced:
parsing stops at the decimal point, so the result is the integer part of
the value, truncated toward zero. -/
def jsTruncToInt (q : ℚ) : ℤ :=
  if 0 ≤ q then ⌊q⌋ else ⌈q⌉

/-- `CpuChartGaugeComponent.cpuAvg` on a received sample's
`average.usage` percentage:
`data = ['Load', parseInt(usage.toFixed(1))]` plus the fixed visual
parameters. `translate.instant` is modelled as the identity on the
translation key. -/
def cpuAvg (usage : ℚ) : GaugeConfig :=
  { label := false
    data := ("Load", jsTruncToInt (jsToFixed1 usage))
    units := "%"
    diameter := 136
    fontSize := 28
    max := 100
    subtitle := "Avg Usage" }

/-! ## Helper lemmas -/

theorem jsFindIndex_ge_neg_one (l : List DashboardEnclosure) (p : DashboardEnclosure → Bool) :
    -1 ≤ jsFindIndex l p := by
  unfold jsFindIndex
  cases l.findIdx? p with
  | none => exact le_refl _
  | some i => exact le_trans (by norm_num) (Int.ofNat_nonneg i)

theorem jsFindIndex_eq_neg_one_of_none (l : List DashboardEnclosure) (id : String)
    (h : ∀ enclosure ∈ l, enclosure.id ≠ id) :
    jsFindIndex l (fun enclosure => enclosure.id == id) = -1 := by
  unfold jsFindIndex
  rw [List.findIdx?_eq_none_iff.mpr]
  intro enclosure hmem
  exact beq_eq_false_iff_ne.mpr (h enclosure hmem)

theorem applyOp_index_ge_neg_one (s : EnclosureState) (op : StoreOp)
    (h : -1 ≤ s.selectedEnclosureIndex) : -1 ≤ (applyOp s op).selectedEnclosureIndex := by
  cases op with
  | initiateReset => norm_num [applyOp, initialState]
  | patchEnclosures enclosures => exact h
  | patchLoadingDone => exact h
  | selectEnclosure id =>
      show -1 ≤ (selectEnclosure s id).selectedEnclosureIndex
      unfold selectEnclosure
      by_cases hc :
          jsFindIndex s.enclosures (fun enclosure => enclosure.id == id) = s.selectedEnclosureIndex
      · simp only [hc, if_pos rfl]
        exact h
      · simp only [if_neg hc]
        exact jsFindIndex_ge_neg_one _ _
  | renameSelectedEnclosure label => exact h
  | selectSlot slot => exact h
  | selectView view => exact h
  | selectSide side =>
      show -1 ≤ (selectSide s side).selectedEnclosureIndex
      unfold selectSide
      by_cases hc : some side = s.selectedSide
      · simpa [hc] using h
      · simpa [hc] using h

theorem foldl_applyOp_index_ge_neg_one (ops : List StoreOp) (s : EnclosureState)
    (h : -1 ≤ s.selectedEnclosureIndex) :
    -1 ≤ (List.foldl applyOp s ops).selectedEnclosureIndex := by
  induction ops generalizing s with
  | nil => exact h
  | cons op ops ih => exact ih (applyOp s op) (applyOp_index_ge_neg_one s op h)

theorem foldl_dedupStep_mem (xs : List String) (acc : List String) (x : String) :
    x ∈ xs.foldl (fun acc n => if n ∈ acc then acc else acc ++ [n]) acc
      ↔ x ∈ acc ∨ x ∈ xs := by
  induction xs generalizing acc with
  | nil => simp
  | cons y ys ih =>
      simp only [List.foldl_cons]
      rw [ih]
      by_cases hy : y ∈ acc
      · have hxy : x = y → x ∈ acc := fun he => he ▸ hy
        simp only [if_pos hy, List.mem_cons]
        tauto
      · simp only [if_neg hy, List.mem_append, List.mem_singleton, List.mem_cons]
        tauto

theorem mem_dedupFirst (xs : List String) (x : String) :
    x ∈ dedupFirst xs ↔ x ∈ xs := by
  unfold dedupFirst
  rw [foldl_dedupStep_mem]
  simp

theorem dedupFirst_concat (xs : List String) (x : String) :
    dedupFirst (xs ++ [x])
      = if x ∈ dedupFirst xs then dedupFirst xs else dedupFirst xs ++ [x] := by
  unfold dedupFirst
  rw [List.foldl_concat]

theorem anyKey_iff (m : List (String × EnclosurePoolInfo)) (k : String) :
    (m.any (fun p => p.1 == k) = true) ↔ k ∈ m.map Prod.fst := by
  simp [List.any_eq_true, List.mem_map]

theorem lastEntryValue_isSome (l : List (String × EnclosurePoolInfo)) (k : String)
    (h : k ∈ l.map Prod.fst) : (lastEntryValue l k).isSome := by
  unfold lastEntryValue
  obtain ⟨p, hp, he⟩ := List.mem_map.mp h
  have hfind : (List.find? (fun p => p.1 == k) l.reverse).isSome :=
    List.find?_isSome.mpr ⟨p, List.mem_reverse.mpr hp, by simp [he]⟩
  obtain ⟨q, hq⟩ := Option.isSome_iff_exists.mp hfind
  rw [hq]
  rfl

theorem lastEntryValue_concat (l : List (String × EnclosurePoolInfo))
    (kv : String × EnclosurePoolInfo) (k : String) :
    lastEntryValue (l ++ [kv]) k
      = if kv.1 == k then some kv.2 else lastEntryValue l k := by
  unfold lastEntryValue
  rw [List.reverse_append]
  simp only [List.reverse_cons, List.reverse_nil, List.nil_append, List.singleton_append]
  by_cases hk : (kv.1 == k) = true
  · simp [List.find?_cons, hk]
  · simp [List.find?_cons, hk]

theorem lastWinsEntries_keys (l : List (String × EnclosurePoolInfo)) :
    (lastWinsEntries l).map Prod.fst = dedupFirst (l.map Prod.fst) := by
  unfold lastWinsEntries
  rw [List.map_filterMap]
  have hcongr : ∀ k ∈ dedupFirst (l.map Prod.fst),
      Option.map Prod.fst ((lastEntryValue l k).map (fun v => (k, v))) = some k := by
    intro k hk
    obtain ⟨v, hv⟩ := Option.isSome_iff_exists.mp
      (lastEntryValue_isSome l k ((mem_dedupFirst _ _).mp hk))
    rw [hv]
    rfl
  rw [List.filterMap_congr hcongr]
  exact List.filterMap_some _

theorem jsMapOfEntries_eq_lastWins (l : List (String × EnclosurePoolInfo)) :
    jsMapOfEntries l = lastWinsEntries l := by
  induction l using List.reverseRecOn with
  | nil => rfl
  | append_singleton l kv ih =>
      have hstep : jsMapOfEntries (l ++ [kv]) = jsMapSet (jsMapOfEntries l) kv := by
        unfold jsMapOfEntries
        rw [List.foldl_concat]
      rw [hstep, ih]
      by_cases hmem : kv.1 ∈ l.map Prod.fst
      · -- key already present: the set overwrites the value in place
        have hany : (lastWinsEntries l).any (fun p => p.1 == kv.1) = true := by
          rw [anyKey_iff, lastWinsEntries_keys, mem_dedupFirst]
          exact hmem
        unfold jsMapSet
        rw [if_pos hany]
        have hkeys : dedupFirst ((l ++ [kv]).map Prod.fst) = dedupFirst (l.map Prod.fst) := by
          rw [List.map_append]
          simp only [List.map_cons, List.map_nil]
          rw [dedupFirst_concat, if_pos ((mem_dedupFirst _ _).mpr hmem)]
        show (lastWinsEntries l).map (fun p => if p.1 == kv.1 then (p.1, kv.2) else p)
            = lastWinsEntries (l ++ [kv])
        unfold lastWinsEntries
        rw [hkeys, List.map_filterMap]
        apply List.filterMap_congr
        intro k hk
        have hkl : k ∈ l.map Prod.fst := (mem_dedupFirst _ _).mp hk
        by_cases hke : kv.1 = k
        · subst hke
          obtain ⟨v, hv⟩ := Option.isSome_iff_exists.mp (lastEntryValue_isSome l kv.1 hkl)
          rw [hv, lastEntryValue_concat, if_pos (by simp)]
          simp
        · have hbe : (kv.1 == k) = false := beq_eq_false_iff_ne.mpr hke
          rw [lastEntryValue_concat, if_neg (by simp [hbe])]
          cases hlv : lastEntryValue l k with
          | none => rfl
          | some v =>
              have hbf : (k == kv.1) = false := beq_eq_false_iff_ne.mpr (Ne.symm hke)
              show some (if k == kv.1 then (k, kv.2) else (k, v)) = some (k, v)
              rw [hbf]
              rfl
      · -- new key: the set appends the entry at the end
        have hany : (lastWinsEntries l).any (fun p => p.1 == kv.1) = false := by
          rw [← Bool.not_eq_true]
          rw [anyKey_iff, lastWinsEntries_keys, mem_dedupFirst]
          exact hmem
        unfold jsMapSet
        rw [if_neg (by simp [hany])]
        have hkeys : dedupFirst ((l ++ [kv]).map Prod.fst)
            = dedupFirst (l.map Prod.fst) ++ [kv.1] := by
          rw [List.map_append]
          simp only [List.map_cons, List.map_nil]
          rw [dedupFirst_concat,
            if_neg (fun hc => hmem ((mem_dedupFirst _ _).mp hc))]
        show lastWinsEntries l ++ [kv] = lastWinsEntries (l ++ [kv])
        unfold lastWinsEntries
        rw [hkeys, List.filterMap_append]
        congr 1
        · apply List.filterMap_congr
          intro k hk
          have hkl : k ∈ l.map Prod.fst := (mem_dedupFirst _ _).mp hk
          have hke : kv.1 ≠ k := fun he => hmem (he ▸ hkl)
          rw [lastEntryValue_concat, if_neg (by simp [beq_eq_false_iff_ne.mpr hke])]
        · rw [List.filterMap]
          simp [lastEntryValue_concat]

theorem filtered_entries_eq (slots : List DashboardEnclosureSlot) :
    (slots.filter (fun slot => slot.pool_info.isSome)).filterMap
        (fun slot => slot.pool_info.map (fun pi => (pi.pool_name, pi)))
      = (slots.filterMap (fun slot => slot.pool_info)).map
          (fun pi => (pi.pool_name, pi)) := by
  induction slots with
  | nil => rfl
  | cons slot slots ih =>
      cases hpi : slot.pool_info with
      | none => simpa [List.filter_cons, List.filterMap_cons, hpi] using ih
      | some pi => simpa [List.filter_cons, List.filterMap_cons, hpi] using ih

theorem poolsInfo_eq_poolsInfoLastWins (slots : List DashboardEnclosureSlot) :
    poolsInfo slots = poolsInfoLastWins slots := by
  unfold poolsInfo poolsInfoLastWins
  rw [filtered_entries_eq, jsMapOfEntries_eq_lastWins]
  unfold lastWinsEntries
  rw [List.map_filterMap, List.map_map]
  have hkeys : (Prod.fst ∘ fun pi : EnclosurePoolInfo => (pi.pool_name, pi))
      = fun pi : EnclosurePoolInfo => pi.pool_name := rfl
  rw [hkeys]
  apply List.filterMap_congr
  intro k hk
  simp only [lastEntryValue, ← List.map_reverse, List.find?_map, Option.map_map]
  have hpred : ((fun p : String × EnclosurePoolInfo => p.1 == k)
      ∘ fun pi : EnclosurePoolInfo => (pi.pool_name, pi))
      = fun pi : EnclosurePoolInfo => pi.pool_name == k := rfl
  rw [hpred]
  cases hfind : (slots.filterMap (fun slot => slot.pool_info)).reverse.find?
      (fun pi => pi.pool_name == k) with
  | none => rfl
  | some pi => rfl

/-! ## Claims about the store's updaters and effects -/

/-- C3 (counterexample): the claimed invariant — `selectedEnclosureIndex`
is a valid index or 0 on an empty sequence — fails on a reachable state:
from the initial state (no enclosures, index 0), `selectEnclosure "a"`
misses, `findIndex` returns `-1`, and since `-1 ≠ 0` the updater installs
`-1` even though the sequence is empty. -/
theorem index_invariant_fails_on_lookup_miss :
    Reachable (applyOp initialState (StoreOp.selectEnclosure "a"))
      ∧ ¬ claimedIndexInvariant (applyOp initialState (StoreOp.selectEnclosure "a")) :=
  ⟨⟨[StoreOp.selectEnclosure "a"], rfl⟩, by decide⟩

/-- C3 (amended): in every state reachable from the initial state by any
sequence of store events, `selectedEnclosureIndex` is at least `-1`; a
failed lookup leaves the `-1` sentinel, and a refresh that shrinks the
sequence can leave an out-of-range index, so validity as an index is not
maintained. -/
theorem reachable_index_ge_neg_one (s : EnclosureState) (h : Reachable s) :
    -1 ≤ s.selectedEnclosureIndex := by
  obtain ⟨ops, rfl⟩ := h
  exact foldl_applyOp_index_ge_neg_one ops initialState (by norm_num [initialState])

/-- C3 (witness): the amended invariant at the initial state itself. -/
theorem reachable_index_ge_neg_one_witness : -1 ≤ initialState.selectedEnclosureIndex :=
  reachable_index_ge_neg_one initialState ⟨[], rfl⟩

/-- C4: when the id's lookup resolves to an index different from the
current `selectedEnclosureIndex`, `selectEnclosure` installs the found
index (`-1` when no enclosure has that id), clears `selectedSlot`,
resets `selectedSide` to undefined and `selectedView` to the default
Pools view, and leaves every other field as it was. -/
theorem selectEnclosure_changes_selection (s : EnclosureState) (id : String)
    (h : jsFindIndex s.enclosures (fun enclosure => enclosure.id == id)
        ≠ s.selectedEnclosureIndex) :
    selectEnclosure s id =
      { s with
        selectedEnclosureIndex := jsFindIndex s.enclosures (fun enclosure => enclosure.id == id)
        selectedSlot := none
        selectedSide := none
        selectedView := EnclosureView.Pools }
      ∧ ((∀ enclosure ∈ s.enclosures, enclosure.id ≠ id) →
          jsFindIndex s.enclosures (fun enclosure => enclosure.id == id) = -1) := by
  constructor
  · unfold selectEnclosure
    simp only [if_neg h]
  · exact jsFindIndex_eq_neg_one_of_none s.enclosures id

/-- C4 (witness): selecting the second of two enclosures from the
initial selection resets slot, side and view. -/
theorem selectEnclosure_changes_selection_witness :
    jsFindIndex [DashboardEnclosure.mk "e0" "L0" [], DashboardEnclosure.mk "e1" "L1" []]
        (fun enclosure => enclosure.id == "e1") ≠ (0 : Int)
      ∧ selectEnclosure
          { initialState with
            enclosures := [DashboardEnclosure.mk "e0" "L0" [], DashboardEnclosure.mk "e1" "L1" []]
            selectedSlot := some ⟨7, none⟩
            selectedSide := some EnclosureSide.Rear
            selectedView := EnclosureView.Expanders }
          "e1" =
        { initialState with
          enclosures := [DashboardEnclosure.mk "e0" "L0" [], DashboardEnclosure.mk "e1" "L1" []]
          selectedEnclosureIndex := 1 } :=
  ⟨by decide,
    by
      have h :=
        (selectEnclosure_changes_selection
          { initialState with
            enclosures := [DashboardEnclosure.mk "e0" "L0" [], DashboardEnclosure.mk "e1" "L1" []]
            selectedSlot := some ⟨7, none⟩
            selectedSide := some EnclosureSide.Rear
            selectedView := EnclosureView.Expanders }
          "e1" (by decide)).1
      rw [h]
      decide⟩

/-- C5: when the id's lookup resolves to the already-selected index,
`selectEnclosure` returns the state itself unchanged (the updater's
early `return state`), so a second call in a row with such an id is a
no-op. -/
theorem selectEnclosure_noop_on_same_index (s : EnclosureState) (id : String)
    (h : jsFindIndex s.enclosures (fun enclosure => enclosure.id == id)
        = s.selectedEnclosureIndex) :
    selectEnclosure s id = s
      ∧ selectEnclosure (selectEnclosure s id) id = selectEnclosure s id := by
  have h1 : selectEnclosure s id = s := by
    unfold selectEnclosure
    simp only [if_pos h]
  exact ⟨h1, by rw [h1, h1]⟩

/-- C5 (witness): selecting the already-selected first enclosure leaves
the state unchanged, twice in a row. -/
theorem selectEnclosure_noop_on_same_index_witness :
    selectEnclosure { initialState with enclosures := [DashboardEnclosure.mk "e0" "L0" []] } "e0"
        = { initialState with enclosures := [DashboardEnclosure.mk "e0" "L0" []] }
      ∧ selectEnclosure
            (selectEnclosure { initialState with enclosures := [DashboardEnclosure.mk "e0" "L0" []] } "e0")
            "e0"
          = selectEnclosure { initialState with enclosures := [DashboardEnclosure.mk "e0" "L0" []] } "e0" :=
  selectEnclosure_noop_on_same_index
    { initialState with enclosures := [DashboardEnclosure.mk "e0" "L0" []] } "e0" (by decide)

/-- C6: `selectSide` with the currently selected side returns the state
itself; with a different side it sets `selectedSide`, clears
`selectedSlot`, and changes no other field. -/
theorem selectSide_spec (s : EnclosureState) (side : EnclosureSide) :
    (some side = s.selectedSide → selectSide s side = s)
      ∧ (some side ≠ s.selectedSide →
          selectSide s side = { s with selectedSide := some side, selectedSlot := none }) := by
  constructor
  · intro h
    unfold selectSide
    simp only [if_pos h]
  · intro h
    unfold selectSide
    simp only [if_neg h]

/-- C6 (witness): both branches at concrete states — same side is a
no-op, a different side is installed and clears the slot. -/
theorem selectSide_spec_witness :
    selectSide { initialState with selectedSide := some EnclosureSide.Rear } EnclosureSide.Rear
        = { initialState with selectedSide := some EnclosureSide.Rear }
      ∧ selectSide { initialState with selectedSlot := some ⟨3, none⟩ } EnclosureSide.Top
        = { initialState with selectedSide := some EnclosureSide.Top } :=
  ⟨(selectSide_spec { initialState with selectedSide := some EnclosureSide.Rear }
      EnclosureSide.Rear).1 (by decide),
    by
      have h :=
        (selectSide_spec { initialState with selectedSlot := some ⟨3, none⟩ }
          EnclosureSide.Top).2 (by decide)
      rw [h]
      decide⟩

/-- C7: when the remote call of an `initiate()` run fails, the run still
ends with `isLoading = false` (the `finalize` patch runs on the error
path too) and with `enclosures = []`, the value the initial reset
installed. -/
theorem initiate_failure_still_clears_loading (s : EnclosureState) :
    (initiateDone none s).isLoading = false ∧ (initiateDone none s).enclosures = [] :=
  ⟨rfl, rfl⟩

/-- C8: `update()` never touches `isLoading`, `selectedEnclosureIndex`,
`selectedSlot`, `selectedView` or `selectedSide`; on success it replaces
only `enclosures` with the fetched payload, and on failure the whole
state, previous `enclosures` included, is left unchanged. -/
theorem update_frame_conditions :
    (∀ (result : Option (List DashboardEnclosure)) (s : EnclosureState),
        (updateDone result s).isLoading = s.isLoading
          ∧ (updateDone result s).selectedEnclosureIndex = s.selectedEnclosureIndex
          ∧ (updateDone result s).selectedSlot = s.selectedSlot
          ∧ (updateDone result s).selectedView = s.selectedView
          ∧ (updateDone result s).selectedSide = s.selectedSide)
      ∧ (∀ (enclosures : List DashboardEnclosure) (s : EnclosureState),
          updateDone (some enclosures) s = { s with enclosures := enclosures })
      ∧ (∀ s : EnclosureState, updateDone none s = s) := by
  refine ⟨fun result s => ?_, fun enclosures s => rfl, fun s => rfl⟩
  cases result with
  | none => exact ⟨rfl, rfl, rfl, rfl, rfl⟩
  | some enclosures => exact ⟨rfl, rfl, rfl, rfl, rfl⟩

/-- C9: for a store that has not subscribed yet (and a notifier that
issues ids from its counter), a second `addListenerForDiskUpdates()`
call before teardown is a no-op — the notifier's registry is exactly the
one the first call left — and a fired disk-update notification triggers
exactly one `update()` call, after one call and after two. -/
theorem addListenerForDiskUpdates_idempotent (st : ListenerState) (h : FreshListener st) :
    addListenerForDiskUpdates (addListenerForDiskUpdates st) = addListenerForDiskUpdates st
      ∧ updateCallsPerNotification (addListenerForDiskUpdates st) = 1
      ∧ updateCallsPerNotification (addListenerForDiskUpdates (addListenerForDiskUpdates st)) = 1 := by
  obtain ⟨h1, h2⟩ := h
  have e1 : addListenerForDiskUpdates st =
      { notifier :=
          { nextId := st.notifier.nextId + 1
            subscribers := st.notifier.subscribers ++ [st.notifier.nextId] }
        subscriptionId := some st.notifier.nextId } := by
    unfold addListenerForDiskUpdates
    rw [h1]
  have e2 : addListenerForDiskUpdates (addListenerForDiskUpdates st) =
      addListenerForDiskUpdates st := by
    rw [e1]
    rfl
  have hfilter : (st.notifier.subscribers.filter
      (fun i => (some st.notifier.nextId : Option Nat) == some i)) = [] := by
    rw [List.filter_eq_nil_iff]
    intro i hi
    have : i ≠ st.notifier.nextId := Nat.ne_of_lt (h2 i hi)
    simp [this.symm]
  have count1 : updateCallsPerNotification (addListenerForDiskUpdates st) = 1 := by
    rw [e1]
    unfold updateCallsPerNotification
    simp only [List.filter_append, hfilter]
    simp
  exact ⟨e2, count1, by rw [e2]; exact count1⟩

/-- C9 (witness): a fresh store against a notifier that already has two
other subscribers. -/
theorem addListenerForDiskUpdates_idempotent_witness :
    FreshListener { notifier := { nextId := 2, subscribers := [0, 1] }, subscriptionId := none }
      ∧ addListenerForDiskUpdates (addListenerForDiskUpdates
            { notifier := { nextId := 2, subscribers := [0, 1] }, subscriptionId := none })
          = addListenerForDiskUpdates
              { notifier := { nextId := 2, subscribers := [0, 1] }, subscriptionId := none }
      ∧ updateCallsPerNotification (addListenerForDiskUpdates
            { notifier := { nextId := 2, subscribers := [0, 1] }, subscriptionId := none }) = 1 :=
  ⟨⟨rfl, by decide⟩,
    (addListenerForDiskUpdates_idempotent
      { notifier := { nextId := 2, subscribers := [0, 1] }, subscriptionId := none }
      (by constructor <;> decide)).1,
    (addListenerForDiskUpdates_idempotent
      { notifier := { nextId := 2, subscribers := [0, 1] }, subscriptionId := none }
      (by constructor <;> decide)).2.1⟩

/-- C10: when `selectedEnclosureIndex` is the `-1` sentinel,
`renameSelectedEnclosure` changes nothing: the JS assignment at index
`-1` lands on a non-positional property, so every positional element of
`enclosures`, and every other field, is as before (value-wise the state
is unchanged; only a fresh array copy is produced). -/
theorem renameSelectedEnclosure_at_sentinel (s : EnclosureState) (label : String)
    (h : s.selectedEnclosureIndex = -1) :
    renameSelectedEnclosure s label = s := by
  unfold renameSelectedEnclosure
  rw [dif_neg]
  · intro hc
    rw [h] at hc
    exact absurd hc.1 (by norm_num)

/-- C10 (witness): renaming after a missed lookup (index `-1`) with one
enclosure present leaves the state unchanged. -/
theorem renameSelectedEnclosure_at_sentinel_witness :
    renameSelectedEnclosure
        { initialState with
          enclosures := [DashboardEnclosure.mk "e0" "L0" []]
          selectedEnclosureIndex := -1 }
        "newLabel"
      = { initialState with
          enclosures := [DashboardEnclosure.mk "e0" "L0" []]
          selectedEnclosureIndex := -1 } :=
  renameSelectedEnclosure_at_sentinel
    { initialState with
      enclosures := [DashboardEnclosure.mk "e0" "L0" []]
      selectedEnclosureIndex := -1 }
    "newLabel" rfl

/-! ## Claims about the CPU gauge -/

/-- C2 (counterexample): at `usage = 0.5` the gauge's data point is not
the one-decimal-rounded usage: `toFixed(1)` yields the string `"0.5"`,
but `parseInt` stops at the decimal point and returns `0`. -/
theorem cpuAvg_data_not_rounded_to_one_decimal :
    (cpuAvg (1 / 2)).data.2 = 0
      ∧ jsToFixed1 (1 / 2) = 1 / 2
      ∧ ¬ (((cpuAvg (1 / 2)).data.2 : ℚ) = jsToFixed1 (1 / 2)) := by
  refine ⟨?_, ?_, ?_⟩ <;>
    norm_num [cpuAvg, jsToFixed1, jsTruncToInt, round_eq]

/-- C2 (amended): for a non-negative usage sample, the gauge's primary
data point is the integer part (floor) of the usage rounded to one
decimal place — `parseInt(usage.toFixed(1))` — and the fixed parameters
are as claimed: label suppressed, units `%`, max 100, diameter 136,
font size 28. -/
theorem cpuAvg_config_spec (usage : ℚ) (h : 0 ≤ usage) :
    (cpuAvg usage).data = ("Load", ⌊jsToFixed1 usage⌋)
      ∧ (cpuAvg usage).label = false
      ∧ (cpuAvg usage).units = "%"
      ∧ (cpuAvg usage).max = 100
      ∧ (cpuAvg usage).diameter = 136
      ∧ (cpuAvg usage).fontSize = 28 := by
  refine ⟨?_, rfl, rfl, rfl, rfl, rfl⟩
  have hr : (0 : ℤ) ≤ round (usage * 10) := by
    rw [round_eq]
    refine Int.le_floor.mpr ?_
    push_cast
    nlinarith
  have h0 : (0 : ℚ) ≤ jsToFixed1 usage := by
    unfold jsToFixed1
    refine div_nonneg ?_ (by norm_num)
    exact_mod_cast hr
  show ("Load", jsTruncToInt (jsToFixed1 usage)) = ("Load", ⌊jsToFixed1 usage⌋)
  unfold jsTruncToInt
  rw [if_pos h0]

/-- C2 (witness): the amended statement at `usage = 42.75`, whose
one-decimal rounding is `42.8` and whose displayed value is `42`. -/
theorem cpuAvg_config_spec_witness :
    (0 : ℚ) ≤ 171 / 4
      ∧ (cpuAvg (171 / 4)).data = ("Load", ⌊jsToFixed1 (171 / 4)⌋)
      ∧ jsToFixed1 (171 / 4) = 214 / 5
      ∧ ⌊jsToFixed1 (171 / 4)⌋ = 42 :=
  ⟨by norm_num,
    (cpuAvg_config_spec (171 / 4) (by norm_num)).1,
    by norm_num [jsToFixed1, round_eq],
    by norm_num [jsToFixed1, round_eq]⟩

/-! ## Claims about the tile view -/

/-- C1 (counterexample): with two slots of pool `tank`, the first
`ONLINE` and the second `FAULTED`, the tile view's `poolsInfo` keeps the
second slot's descriptor — `Map.set` on an existing key overwrites the
stored value — so the "first occurrence per pool name wins" reading
fails. -/
theorem tile_poolsInfo_first_wins_fails :
    tilePoolsInfo
        { initialState with
          enclosures := [DashboardEnclosure.mk "e0" "L0"
            [⟨1, some ⟨"tank", "ONLINE"⟩⟩, ⟨2, some ⟨"tank", "FAULTED"⟩⟩, ⟨3, none⟩]] }
      ≠ poolsInfoFirstWins (selectedEnclosureSlots
        { initialState with
          enclosures := [DashboardEnclosure.mk "e0" "L0"
            [⟨1, some ⟨"tank", "ONLINE"⟩⟩, ⟨2, some ⟨"tank", "FAULTED"⟩⟩, ⟨3, none⟩]] }) := by
  decide

/-- C1 (amended): for every store state, the tile view's `poolsInfo` is
the deduplicated-by-pool-name list of the `pool_info` descriptors of the
selected enclosure's array-device slots, where slots with no `pool_info`
are excluded, pool names appear in order of their first occurrence, and,
when several slots share a pool name, the descriptor of the LAST such
slot (in slot order) is the one kept. -/
theorem tile_poolsInfo_eq_lastWins (s : EnclosureState) :
    tilePoolsInfo s = poolsInfoLastWins (selectedEnclosureSlots s) := by
  unfold tilePoolsInfo
  exact poolsInfo_eq_poolsInfoLastWins (selectedEnclosureSlots s)
